import Mathlib

/-!
Shallow embedding of `src/components.rs` from the bevy_ecs_ldtk repository.

Machine integers are modelled as follows:
- Rust `i32` values are Lean `Int`s; a value is a valid `i32` when it lies in
  `[-2^31, 2^31)`.  Rust's release-mode arithmetic on `i32` wraps, which is
  modelled explicitly with `wrap32` (reduction into `[-2^31, 2^31)` modulo
  `2^32`).
- Rust `u32` values are Lean `Nat`s; a value is a valid `u32` when it is
  below `2^32`.
- Rust `as` casts between `i32` and `u32` reinterpret the two's-complement
  bit pattern; they are modelled by `u32cast` and `i32cast`.
- `f32` fields are only ever copied, never computed with, so Lean's `Float`
  stands in for `f32`.
- `HashSet<String>` is modelled as `Finset String`: its derived equality is
  set equality, matching `std::collections::HashSet`'s `PartialEq`.
-/

/-- Interval of valid Rust `i32` values. -/
def InI32 (x : Int) : Prop := -(2 ^ 31) ≤ x ∧ x < 2 ^ 31

instance (x : Int) : Decidable (InI32 x) := by
  unfold InI32; infer_instance

/-- Two's-complement wrap-around of an integer into the `i32` range,
modelling Rust release-mode (wrapping) `i32` arithmetic. -/
def wrap32 (x : Int) : Int := (x + 2 ^ 31) % 2 ^ 32 - 2 ^ 31

/-- Rust `x as u32` for an `i32` value `x`: reinterpret the two's-complement
bit pattern, so non-negative values are unchanged and negative values gain
`2^32`. -/
def u32cast (x : Int) : Nat := if 0 ≤ x then x.toNat else (x + 2 ^ 32).toNat

/-- Rust `n as i32` for a `u32` value `n`: reinterpret the bit pattern, so
values below `2^31` are unchanged and larger values lose `2^32`. -/
def i32cast (n : Nat) : Int := if n < 2 ^ 31 then (n : Int) else (n : Int) - 2 ^ 32

/-- Wrapping `i32` addition (Rust `+` on `i32` in release mode). -/
def i32add (x y : Int) : Int := wrap32 (x + y)

/-- Wrapping `i32` subtraction (Rust `-` on `i32` in release mode). -/
def i32sub (x y : Int) : Int := wrap32 (x - y)

/-- Wrapping `i32` multiplication (Rust `*` on `i32` in release mode). -/
def i32mul (x y : Int) : Int := wrap32 (x * y)

/-- Rust `i32::cmp` (derived `Ord` comparison on `i32`). -/
def i32cmp (x y : Int) : Ordering :=
  if x < y then Ordering.lt else if x = y then Ordering.eq else Ordering.gt

/-- Bevy's `IVec2`: a 2D vector of `i32` components. -/
structure IVec2 where
  x : Int
  y : Int
deriving DecidableEq, Repr

/-- The `IVec2::new` constructor. -/
def IVec2.new (x y : Int) : IVec2 := ⟨x, y⟩

/-- The bevy_ecs_tilemap `TilePos`: a 2D tile index of `u32` components. -/
structure TilePos where
  x : Nat
  y : Nat
deriving DecidableEq, Repr

/-- The `TilePos::new` constructor. -/
def TilePos.new (x y : Nat) : TilePos := ⟨x, y⟩

/-- The `GridCoords` component from `src/components.rs`: grid-based
coordinate information with signed `x` and `y`. -/
structure GridCoords where
  x : Int
  y : Int
deriving DecidableEq, Repr

/-- The `GridCoords::new` constructor from `src/components.rs`. -/
def GridCoords.new (x y : Int) : GridCoords := ⟨x, y⟩

/-- Validity predicate: both components are in the `i32` range. -/
def GridCoords.InRange (g : GridCoords) : Prop := InI32 g.x ∧ InI32 g.y

instance (g : GridCoords) : Decidable g.InRange := by
  unfold GridCoords.InRange; infer_instance

/-- The impl `From<IVec2> for GridCoords` in `src/components.rs`. -/
def GridCoords.ofIVec2 (i_vec_2 : IVec2) : GridCoords :=
  ⟨i_vec_2.x, i_vec_2.y⟩

/-- The impl `From<GridCoords> for IVec2` in `src/components.rs`. -/
def IVec2.ofGridCoords (grid_coords : GridCoords) : IVec2 :=
  IVec2.new grid_coords.x grid_coords.y

/-- The impl `From<TilePos> for GridCoords` in `src/components.rs`:
each `u32` component is converted with `as i32`. -/
def GridCoords.ofTilePos (tile_pos : TilePos) : GridCoords :=
  ⟨i32cast tile_pos.x, i32cast tile_pos.y⟩

/-- The impl `From<GridCoords> for TilePos` in `src/components.rs`:
each `i32` component is converted with `as u32`. -/
def TilePos.ofGridCoords (grid_coords : GridCoords) : TilePos :=
  TilePos.new (u32cast grid_coords.x) (u32cast grid_coords.y)

/-- The impl `Add<GridCoords> for GridCoords`: componentwise `i32` addition. -/
def GridCoords.add (self rhs : GridCoords) : GridCoords :=
  ⟨i32add self.x rhs.x, i32add self.y rhs.y⟩

/-- The impl `AddAssign<GridCoords> for GridCoords`: the new value of the
mutated target, given its old value and the right-hand side. -/
def GridCoords.addAssign (self rhs : GridCoords) : GridCoords :=
  ⟨i32add self.x rhs.x, i32add self.y rhs.y⟩

/-- The impl `Sub<GridCoords> for GridCoords`: componentwise `i32` subtraction. -/
def GridCoords.sub (self rhs : GridCoords) : GridCoords :=
  ⟨i32sub self.x rhs.x, i32sub self.y rhs.y⟩

/-- The impl `SubAssign<GridCoords> for GridCoords`: the new value of the
mutated target, given its old value and the right-hand side. -/
def GridCoords.subAssign (self rhs : GridCoords) : GridCoords :=
  ⟨i32sub self.x rhs.x, i32sub self.y rhs.y⟩

/-- The impl `Mul<GridCoords> for GridCoords`: componentwise `i32` multiplication. -/
def GridCoords.mul (self rhs : GridCoords) : GridCoords :=
  ⟨i32mul self.x rhs.x, i32mul self.y rhs.y⟩

/-- The impl `MulAssign<GridCoords> for GridCoords`: the new value of the
mutated target, given its old value and the right-hand side. -/
def GridCoords.mulAssign (self rhs : GridCoords) : GridCoords :=
  ⟨i32mul self.x rhs.x, i32mul self.y rhs.y⟩

/- ------------------------------------------------------------------ -/
/- Helper lemmas about the machine-integer model.                      -/
/- ------------------------------------------------------------------ -/

theorem wrap32_eq_self {x : Int} (h : InI32 x) : wrap32 x = x := by
  obtain ⟨h1, h2⟩ := h
  unfold wrap32
  omega

theorem wrap32_emod (x : Int) : wrap32 x % 2 ^ 32 = x % 2 ^ 32 := by
  unfold wrap32
  omega

theorem wrap32_congr {x y : Int} (h : x % 2 ^ 32 = y % 2 ^ 32) :
    wrap32 x = wrap32 y := by
  unfold wrap32
  omega

theorem wrap32_modeq (x : Int) : wrap32 x ≡ x [ZMOD 2 ^ 32] := by
  have := wrap32_emod x
  simpa [Int.ModEq, Int.emod_emod_of_dvd] using this

theorem u32cast_eq_emod {x : Int} (h : InI32 x) :
    (u32cast x : Int) = x % 2 ^ 32 := by
  obtain ⟨h1, h2⟩ := h
  unfold u32cast
  split <;> omega

theorem i32cast_u32cast {x : Int} (h0 : 0 ≤ x) (h1 : x < 2 ^ 31) :
    i32cast (u32cast x) = x := by
  unfold u32cast i32cast
  split <;> split <;> omega

/- ------------------------------------------------------------------ -/
/- Remaining components from src/components.rs.                        -/
/- ------------------------------------------------------------------ -/

/-- The `IntGridCell` component: a single `i32` tag attached to an
IntGrid cell. -/
structure IntGridCell where
  value : Int
deriving DecidableEq, Repr

/-- The derived `Ord` comparison on `IntGridCell` (lexicographic over its
single field, i.e. `i32::cmp` on `value`). -/
def IntGridCell.cmp (a b : IntGridCell) : Ordering := i32cmp a.value b.value

/-- The derived `PartialOrd`/`Ord` `<=` on `IntGridCell`: `a <= b` holds
when the comparison is not `Greater`. -/
def IntGridCell.le (a b : IntGridCell) : Prop := IntGridCell.cmp a b ≠ Ordering.gt

instance (a b : IntGridCell) : Decidable (IntGridCell.le a b) := by
  unfold IntGridCell.le; infer_instance

/-- The derived `Default` for `IntGridCell`: every field takes its default,
and `i32::default()` is `0`. -/
instance : Inhabited IntGridCell := ⟨⟨0⟩⟩

/-- The `LevelSet` component: a `HashSet<String>` of level iids, modelled
as a `Finset String`.  Its derived equality, like `HashSet`'s, is set
equality. -/
structure LevelSet where
  iids : Finset String
deriving DecidableEq

/-- A `LevelSet` built by starting from the empty set and inserting each
identifier of a list in order (`HashSet::insert` for each element). -/
def LevelSet.fromList (l : List String) : LevelSet :=
  ⟨l.foldl (fun s i => insert i s) ∅⟩

/-- The LDtk `EntityInstance` data (defined in the crate's `ldtk` module,
outside `src/`); only the fields read by `src/components.rs` are modelled:
the grid position and the instance iid. -/
structure EntityInstance where
  grid : IVec2
  iid : String
deriving DecidableEq, Repr

/-- The `Worldly` component: a stable entity identifier. -/
structure Worldly where
  entity_iid : String
deriving DecidableEq, Repr

/-- The function `Worldly::from_entity_info` from `src/components.rs`:
clones the entity instance's iid.  The Rust function takes the instance by
shared reference and only clones from it, so it is pure. -/
def Worldly.from_entity_info (entity_instance : EntityInstance) : Worldly :=
  ⟨entity_instance.iid⟩

/-- Modelled from the spec: the helper `ldtk_grid_coords_to_grid_coords`
lives in the crate's `utils` module, which is not under `src/`.  Per the
spec, conversion from a level-format grid position into `GridCoords` flips
the vertical axis using the owning layer's grid height, mapping the
top-left-origin row index to the bottom-left-origin convention. -/
def ldtk_grid_coords_to_grid_coords (ldtk_coords : IVec2) (ldtk_grid_height : Int) :
    GridCoords :=
  ⟨ldtk_coords.x, ldtk_grid_height - ldtk_coords.y - 1⟩

/-- The LDtk `Type` enum (layer kind); named `LdtkType` because `Type` is
reserved in Lean. -/
inductive LdtkType where
  | IntGrid
  | Entities
  | Tiles
  | AutoLayer
deriving DecidableEq, Repr

/-- The LDtk `LayerInstance` data (defined in the crate's `ldtk` module,
outside `src/`); modelled with the fields that `LayerMetadata` snapshots,
plus the tile/entity payload fields that the snapshot deliberately drops. -/
structure LayerInstance where
  c_hei : Int
  c_wid : Int
  grid_size : Int
  identifier : String
  opacity : Float
  px_total_offset_x : Int
  px_total_offset_y : Int
  tileset_def_uid : Option Int
  tileset_rel_path : Option String
  layer_instance_type : LdtkType
  iid : String
  layer_def_uid : Int
  level_id : Int
  optional_rules : List Int
  override_tileset_uid : Option Int
  px_offset_x : Int
  px_offset_y : Int
  seed : Int
  visible : Bool
  int_grid_csv : List Int
  entity_instances : List EntityInstance

/-- The `LayerMetadata` component from `src/components.rs`. -/
structure LayerMetadata where
  c_hei : Int
  c_wid : Int
  grid_size : Int
  identifier : String
  opacity : Float
  px_total_offset_x : Int
  px_total_offset_y : Int
  tileset_def_uid : Option Int
  tileset_rel_path : Option String
  layer_instance_type : LdtkType
  iid : String
  layer_def_uid : Int
  level_id : Int
  optional_rules : List Int
  override_tileset_uid : Option Int
  px_offset_x : Int
  px_offset_y : Int
  seed : Int
  visible : Bool

/-- The impl `From<&LayerInstance> for LayerMetadata` in
`src/components.rs`. -/
def LayerMetadata.ofLayerInstance (inst : LayerInstance) : LayerMetadata :=
  ⟨inst.c_hei, inst.c_wid, inst.grid_size, inst.identifier,
   inst.opacity, inst.px_total_offset_x, inst.px_total_offset_y,
   inst.tileset_def_uid, inst.tileset_rel_path,
   inst.layer_instance_type, inst.iid, inst.layer_def_uid,
   inst.level_id, inst.optional_rules, inst.override_tileset_uid,
   inst.px_offset_x, inst.px_offset_y, inst.seed, inst.visible⟩

/-- The function `GridCoords::from_entity_info` from `src/components.rs`:
delegates to `ldtk_grid_coords_to_grid_coords` with the entity's grid
position and the owning layer's grid height. -/
def GridCoords.from_entity_info (entity_instance : EntityInstance)
    (layer_instance : LayerInstance) : GridCoords :=
  ldtk_grid_coords_to_grid_coords entity_instance.grid layer_instance.c_hei

/-- Membership in the set built by folding `insert` over a list. -/
theorem mem_foldl_insert (l : List String) (init : Finset String) (s : String) :
    s ∈ l.foldl (fun acc i => insert i acc) init ↔ s ∈ init ∨ s ∈ l := by
  induction l generalizing init with
  | nil => simp
  | cons a t ih =>
    simp only [List.foldl_cons, ih, Finset.mem_insert, List.mem_cons]
    tauto

/- ------------------------------------------------------------------ -/
/- Claim theorems.                                                     -/
/- ------------------------------------------------------------------ -/

/-- C1: converting a `GridCoords` to `IVec2` and back yields it unchanged,
and converting an `IVec2` to `GridCoords` and back yields it unchanged:
the conversion pair is a lossless bijection. -/
theorem gridcoords_ivec2_roundtrip :
    (∀ g : GridCoords, GridCoords.ofIVec2 (IVec2.ofGridCoords g) = g) ∧
    (∀ v : IVec2, IVec2.ofGridCoords (GridCoords.ofIVec2 v) = v) := by
  constructor <;> intro a <;> cases a <;> rfl

/-- C2: for a `GridCoords` with non-negative components (and components in
the valid `i32` range), converting to `TilePos` and back yields it
unchanged. -/
theorem gridcoords_tilepos_roundtrip (g : GridCoords) (hg : g.InRange)
    (hx : 0 ≤ g.x) (hy : 0 ≤ g.y) :
    GridCoords.ofTilePos (TilePos.ofGridCoords g) = g := by
  obtain ⟨⟨hx1, hx2⟩, ⟨hy1, hy2⟩⟩ := hg
  cases g with
  | mk x y =>
    simp only [TilePos.ofGridCoords, GridCoords.ofTilePos, TilePos.new] at *
    rw [i32cast_u32cast hx hx2, i32cast_u32cast hy hy2]

/-- Witness for C2 at the concrete input (5, 7). -/
theorem gridcoords_tilepos_roundtrip_witness :
    (GridCoords.new 5 7).InRange ∧
    GridCoords.ofTilePos (TilePos.ofGridCoords (GridCoords.new 5 7)) =
      GridCoords.new 5 7 :=
  ⟨by decide,
   gridcoords_tilepos_roundtrip (GridCoords.new 5 7) (by decide) (by decide)
     (by decide)⟩

/-- C3: the `GridCoords` to `TilePos` conversion is total and
deterministic for every valid `i32` input, and each component of the
result equals the input component modulo `2^32` (negative components are
reinterpreted as unsigned). -/
theorem gridcoords_to_tilepos_total (g : GridCoords) (hg : g.InRange) :
    (∀ g2 : GridCoords, g = g2 →
      TilePos.ofGridCoords g = TilePos.ofGridCoords g2) ∧
    ((TilePos.ofGridCoords g).x : Int) = g.x % 2 ^ 32 ∧
    ((TilePos.ofGridCoords g).y : Int) = g.y % 2 ^ 32 := by
  obtain ⟨hgx, hgy⟩ := hg
  refine ⟨fun g2 h => by rw [h], ?_, ?_⟩
  · exact u32cast_eq_emod hgx
  · exact u32cast_eq_emod hgy

/-- Witness for C3 at the concrete input (-3, 4): the x component becomes
`-3 mod 2^32 = 4294967293`. -/
theorem gridcoords_to_tilepos_total_witness :
    (GridCoords.new (-3) 4).InRange ∧
    ((TilePos.ofGridCoords (GridCoords.new (-3) 4)).x : Int) = (-3) % 2 ^ 32 ∧
    (TilePos.ofGridCoords (GridCoords.new (-3) 4)).x = 4294967293 :=
  ⟨by decide,
   (gridcoords_to_tilepos_total (GridCoords.new (-3) 4) (by decide)).2.1,
   by decide⟩

/-- C4: `+`, `-`, `*` on `GridCoords` are componentwise over wrapping
`i32` arithmetic, and each in-place form leaves its target equal to the
corresponding pure binary operation applied to the old value. -/
theorem gridcoords_arith_componentwise :
    (∀ a b : GridCoords,
      (GridCoords.add a b).x = i32add a.x b.x ∧
      (GridCoords.add a b).y = i32add a.y b.y ∧
      (GridCoords.sub a b).x = i32sub a.x b.x ∧
      (GridCoords.sub a b).y = i32sub a.y b.y ∧
      (GridCoords.mul a b).x = i32mul a.x b.x ∧
      (GridCoords.mul a b).y = i32mul a.y b.y) ∧
    (∀ a b : GridCoords,
      GridCoords.addAssign a b = GridCoords.add a b ∧
      GridCoords.subAssign a b = GridCoords.sub a b ∧
      GridCoords.mulAssign a b = GridCoords.mul a b) :=
  ⟨fun _ _ => ⟨rfl, rfl, rfl, rfl, rfl, rfl⟩, fun _ _ => ⟨rfl, rfl, rfl⟩⟩

/-- C5: `GridCoords::from_entity_info` keeps the x component and flips the
vertical axis using the owning layer's grid height:
`y = c_hei - 1 - grid.y`. -/
theorem gridcoords_from_entity_info_flip (e : EntityInstance)
    (l : LayerInstance) :
    (GridCoords.from_entity_info e l).x = e.grid.x ∧
    (GridCoords.from_entity_info e l).y = l.c_hei - 1 - e.grid.y := by
  refine ⟨rfl, ?_⟩
  show l.c_hei - e.grid.y - 1 = l.c_hei - 1 - e.grid.y
  omega

/-- C6: `LevelSet` equality is set equality: two level sets built by
inserting the elements of two lists containing exactly the same
identifiers (any order, any duplication) are equal. -/
theorem levelset_eq_of_same_elements (l1 l2 : List String)
    (h : ∀ s, s ∈ l1 ↔ s ∈ l2) :
    LevelSet.fromList l1 = LevelSet.fromList l2 := by
  unfold LevelSet.fromList
  congr 1
  ext s
  rw [mem_foldl_insert, mem_foldl_insert]
  simpa using h s

/-- Witness for C6: the lists ["a", "b"] and ["b", "a", "a"] hold the same
identifiers, so the level sets built from them are equal. -/
theorem levelset_eq_of_same_elements_witness :
    LevelSet.fromList ["a", "b"] = LevelSet.fromList ["b", "a", "a"] :=
  levelset_eq_of_same_elements _ _ (by
    intro s
    simp only [List.mem_cons, List.mem_singleton, List.not_mem_nil, or_false]
    tauto)

/-- C7: the ordering on `IntGridCell` is determined entirely by `value`
(`a <= b` iff `a.value <= b.value`), it is a total order (total,
antisymmetric, reflexive, transitive), and the default cell has value 0. -/
theorem intgridcell_order_total :
    (∀ a b : IntGridCell, a.le b ↔ a.value ≤ b.value) ∧
    (∀ a b : IntGridCell, a.le b ∨ b.le a) ∧
    (∀ a b : IntGridCell, a.le b → b.le a → a = b) ∧
    (∀ a : IntGridCell, a.le a) ∧
    (∀ a b c : IntGridCell, a.le b → b.le c → a.le c) ∧
    (default : IntGridCell).value = 0 := by
  have key : ∀ a b : IntGridCell, a.le b ↔ a.value ≤ b.value := by
    intro a b
    unfold IntGridCell.le IntGridCell.cmp i32cmp
    split_ifs with h1 h2 <;> simp <;> omega
  refine ⟨key, ?_, ?_, ?_, ?_, rfl⟩
  · intro a b
    rw [key, key]
    omega
  · intro a b hab hba
    rw [key] at hab hba
    cases a
    cases b
    simp_all
    omega
  · intro a
    rw [key]
  · intro a b c hab hbc
    rw [key] at *
    omega

/-- C8: `Worldly::from_entity_info` copies the entity instance's iid
unchanged into `entity_iid` (the instance is taken by shared reference and
never modified, so the model is a pure function). -/
theorem worldly_from_entity_info_iid (e : EntityInstance) :
    (Worldly.from_entity_info e).entity_iid = e.iid := rfl

/-- C9: converting a `LayerInstance` to `LayerMetadata` is a
field-for-field snapshot: every field of the result equals the same-named
field of the input, unaltered. -/
theorem layermetadata_snapshot (l : LayerInstance) :
    (LayerMetadata.ofLayerInstance l).c_hei = l.c_hei ∧
    (LayerMetadata.ofLayerInstance l).c_wid = l.c_wid ∧
    (LayerMetadata.ofLayerInstance l).grid_size = l.grid_size ∧
    (LayerMetadata.ofLayerInstance l).identifier = l.identifier ∧
    (LayerMetadata.ofLayerInstance l).opacity = l.opacity ∧
    (LayerMetadata.ofLayerInstance l).px_total_offset_x = l.px_total_offset_x ∧
    (LayerMetadata.ofLayerInstance l).px_total_offset_y = l.px_total_offset_y ∧
    (LayerMetadata.ofLayerInstance l).tileset_def_uid = l.tileset_def_uid ∧
    (LayerMetadata.ofLayerInstance l).tileset_rel_path = l.tileset_rel_path ∧
    (LayerMetadata.ofLayerInstance l).layer_instance_type = l.layer_instance_type ∧
    (LayerMetadata.ofLayerInstance l).iid = l.iid ∧
    (LayerMetadata.ofLayerInstance l).layer_def_uid = l.layer_def_uid ∧
    (LayerMetadata.ofLayerInstance l).level_id = l.level_id ∧
    (LayerMetadata.ofLayerInstance l).optional_rules = l.optional_rules ∧
    (LayerMetadata.ofLayerInstance l).override_tileset_uid = l.override_tileset_uid ∧
    (LayerMetadata.ofLayerInstance l).px_offset_x = l.px_offset_x ∧
    (LayerMetadata.ofLayerInstance l).px_offset_y = l.px_offset_y ∧
    (LayerMetadata.ofLayerInstance l).seed = l.seed ∧
    (LayerMetadata.ofLayerInstance l).visible = l.visible :=
  ⟨rfl, rfl, rfl, rfl, rfl, rfl, rfl, rfl, rfl, rfl, rfl, rfl, rfl, rfl, rfl,
   rfl, rfl, rfl, rfl⟩

/- Helper lemmas for the wrapping-arithmetic algebra of C10. -/

theorem i32add_comm (x y : Int) : i32add x y = i32add y x := by
  unfold i32add
  rw [Int.add_comm]

theorem i32mul_comm (x y : Int) : i32mul x y = i32mul y x := by
  unfold i32mul
  rw [Int.mul_comm]

theorem i32add_assoc (x y z : Int) :
    i32add (i32add x y) z = i32add x (i32add y z) := by
  unfold i32add
  have h1 := wrap32_emod (x + y)
  have h2 := wrap32_emod (y + z)
  have e1 : wrap32 (wrap32 (x + y) + z) = wrap32 (x + y + z) :=
    wrap32_congr (by omega)
  have e2 : wrap32 (x + wrap32 (y + z)) = wrap32 (x + (y + z)) :=
    wrap32_congr (by omega)
  rw [e1, e2, Int.add_assoc]

theorem i32mul_assoc (x y z : Int) :
    i32mul (i32mul x y) z = i32mul x (i32mul y z) := by
  unfold i32mul
  have m1 : wrap32 (x * y) * z ≡ x * y * z [ZMOD 2 ^ 32] :=
    Int.ModEq.mul_right z (wrap32_modeq (x * y))
  have m2 : x * wrap32 (y * z) ≡ x * (y * z) [ZMOD 2 ^ 32] :=
    Int.ModEq.mul_left x (wrap32_modeq (y * z))
  rw [wrap32_congr m1, wrap32_congr m2, Int.mul_assoc]

theorem i32add_zero {x : Int} (h : InI32 x) : i32add x 0 = x := by
  unfold i32add
  rw [Int.add_zero]
  exact wrap32_eq_self h

theorem i32mul_one {x : Int} (h : InI32 x) : i32mul x 1 = x := by
  unfold i32mul
  rw [Int.mul_one]
  exact wrap32_eq_self h

theorem i32sub_add_cancel {x : Int} (y : Int) (h : InI32 x) :
    i32sub (i32add x y) y = x := by
  unfold i32add i32sub
  have h1 := wrap32_emod (x + y)
  have e1 : wrap32 (wrap32 (x + y) - y) = wrap32 (x + y - y) :=
    wrap32_congr (by omega)
  rw [e1]
  have : x + y - y = x := by omega
  rw [this]
  exact wrap32_eq_self h

/-- C10: under the wrapping 32-bit signed integer model, `GridCoords`
addition and multiplication are commutative and associative,
`GridCoords::new(0, 0)` is the additive identity, `GridCoords::new(1, 1)`
is the multiplicative identity, and subtraction cancels addition. -/
theorem gridcoords_algebra (a b c : GridCoords) (ha : a.InRange) :
    GridCoords.add a b = GridCoords.add b a ∧
    GridCoords.mul a b = GridCoords.mul b a ∧
    GridCoords.add (GridCoords.add a b) c = GridCoords.add a (GridCoords.add b c) ∧
    GridCoords.mul (GridCoords.mul a b) c = GridCoords.mul a (GridCoords.mul b c) ∧
    GridCoords.add a (GridCoords.new 0 0) = a ∧
    GridCoords.mul a (GridCoords.new 1 1) = a ∧
    GridCoords.sub (GridCoords.add a b) b = a := by
  obtain ⟨hax, hay⟩ := ha
  obtain ⟨ax, ay⟩ := a
  obtain ⟨bx, by_⟩ := b
  obtain ⟨cx, cy⟩ := c
  simp only [GridCoords.add, GridCoords.sub, GridCoords.mul, GridCoords.new,
    GridCoords.mk.injEq] at *
  exact ⟨⟨i32add_comm _ _, i32add_comm _ _⟩,
    ⟨i32mul_comm _ _, i32mul_comm _ _⟩,
    ⟨i32add_assoc _ _ _, i32add_assoc _ _ _⟩,
    ⟨i32mul_assoc _ _ _, i32mul_assoc _ _ _⟩,
    ⟨i32add_zero hax, i32add_zero hay⟩,
    ⟨i32mul_one hax, i32mul_one hay⟩,
    ⟨i32sub_add_cancel _ hax, i32sub_add_cancel _ hay⟩⟩

/-- Witness for C10 at the concrete inputs (1, 2), (3, 4), (5, 6). -/
theorem gridcoords_algebra_witness :
    (GridCoords.new 1 2).InRange ∧
    GridCoords.sub
        (GridCoords.add (GridCoords.new 1 2) (GridCoords.new 3 4))
        (GridCoords.new 3 4) =
      GridCoords.new 1 2 :=
  ⟨by decide,
   (gridcoords_algebra (GridCoords.new 1 2) (GridCoords.new 3 4)
     (GridCoords.new 5 6) (by decide)).2.2.2.2.2.2⟩
